import Mathlib

/-!
# sanderson-notifications: change detection and notification dispatch

A shallow embedding of the two polling routines of the repository,
`plugins/progress.go` (the progress-bar variant) and `plugins/twitter.go`
(the feed variant), followed by the properties proved about them.

Conventions of the embedding:

* Go `string` is `String`, Go `int` is `Int` (no arithmetic is done on progress
  values other than the bar computation), Go `error` is `Option String`
  (`none` is `nil`, `some msg` carries the message).
* A Go `map[string]T` is an association list in which the most recent binding of
  a key is the one found.
* Everything outside the process (the chat channel, the timeline scraper, the
  progress page, the snapshot file) is an explicit value that the functions
  take and return.
-/

namespace Sanderson

/-! ## The chat channel shared by both plugins -/

/-- The embed attached to a message: the two entries `reportProgress` puts into
the `map[string]interface{}` it hands to `Send`. -/
structure Embed where
  description : String
  footerText : String
deriving DecidableEq, Repr

/-- One call of `DiscordClient.Send(text, name, avatar, embed)`. -/
structure DiscordMessage where
  text : String
  name : String
  avatar : String
  embed : Option Embed
deriving DecidableEq, Repr

/-- Modelled from the spec: `common.DiscordClient`, whose source is not part of
the two plugin files. Section 4.5 gives its contract as
`send(formattedMessage) -> ok | SendFailure`, an outward operation with no
idempotency guarantee. The client is represented by the calls made so far
(oldest first) and by `outcome`, which says, for the calls made so far and the
next message, whether that send fails (`some err`) or succeeds (`none`). Any
deterministic channel is such a function of its call history. -/
structure DiscordClient where
  calls : List DiscordMessage
  outcome : List DiscordMessage → DiscordMessage → Option String

/-- The call `client.Send(text, name, avatar, embed)`: the call is recorded and
its error value returned. -/
def DiscordClient.Send (client : DiscordClient) (m : DiscordMessage) :
    DiscordClient × Option String :=
  ({ client with calls := client.calls ++ [m] }, client.outcome client.calls m)

/-- The channel accepts the messages `ms`, sent one after another starting from
the state `client`: each of these sends succeeds. -/
def SendsSucceed (client : DiscordClient) : List DiscordMessage → Prop
  | [] => True
  | m :: ms => client.outcome client.calls m = none ∧ SendsSucceed (client.Send m).1 ms

/-! ## Go maps with string keys -/

/-- A Go `map[string]β`: an association list, newest binding first. -/
abbrev GoMap (β : Type) := List (String × β)

/-- The statement `m[k] = v`. -/
def GoMap.set {β : Type} (m : GoMap β) (k : String) (v : β) : GoMap β := (k, v) :: m

/-- The expression `v, ok := m[k]`: `none` when the key is not present. -/
def GoMap.get {β : Type} (m : GoMap β) (k : String) : Option β := List.lookup k m

/-! ## plugins/progress.go -/

structure ProgressPlugin where
  Url : String
  Message : String
deriving DecidableEq, Repr

structure Progress where
  Title : String
  Link : String
  Value : Int
deriving DecidableEq, Repr

structure ProgressDiff where
  Title : String
  Link : String
  OldValue : Int
  Value : Int
  New : Bool
deriving DecidableEq, Repr

/-- The constant `blockSize = 2.5`. -/
def blockSize : ℚ := 5 / 2

/-- The constant `blockCount = 100 / blockSize`, an untyped constant that Go
evaluates exactly. -/
def blockCount : ℚ := 100 / blockSize

/-- The map `oldKeyed` built by the first loop of `diff`. -/
def oldKeyed (old : List Progress) : GoMap Progress :=
  old.foldl (fun m v => m.set v.Title v) []

/-- One iteration of the second loop of `diff`: the record stored in
`result[i]` and the updated `noChanges` flag. -/
def diffStep (keyed : GoMap Progress) (acc : List ProgressDiff × Bool) (v : Progress) :
    List ProgressDiff × Bool :=
  let lookup := keyed.get v.Title
  let existedBefore := lookup.isSome
  let oldValue : Int :=
    match lookup with
    | some existing => existing.Value
    | none => 0
  let result := acc.1 ++ [ProgressDiff.mk v.Title v.Link oldValue v.Value (!existedBefore)]
  let noChanges := if !existedBefore || oldValue != v.Value then false else acc.2
  (result, noChanges)

/-- The function `diff(old, new []Progress) []ProgressDiff`; `none` is the `nil`
slice returned when `noChanges` is still true after the loop. -/
def diff (old new : List Progress) : Option (List ProgressDiff) :=
  let r := new.foldl (diffStep (oldKeyed old)) ([], true)
  if r.2 then none else some r.1

/-- The call `strings.Repeat(s, count)`, which panics on a negative count
(`none`). -/
def stringsRepeat (s : String) (count : Int) : Option String :=
  if count < 0 then none else some (String.join (List.replicate count.toNat s))

/-- The value `int(math.Floor(float64(progress.Value) / blockSize))`. The
division is taken in exact rational arithmetic; for the values a progress bar
can carry (and for every `int` of magnitude below `2^52`) the float64 quotient
has the same floor. -/
def fullBlocks (value : Int) : Int := Int.floor ((value : ℚ) / blockSize)

/-- The count `blockCount - fullBlocks` of the second `strings.Repeat`, with the
constant `blockCount` converted to `int`. -/
def emptyBlocks (value : Int) : Int := Int.floor blockCount - fullBlocks value

/-- The formatting verb `%3d`: decimal, padded with blanks on the left to width
three. -/
def fmt3d (v : Int) : String :=
  let s := toString v
  String.mk (List.replicate (3 - s.length) ' ') ++ s

/-- The title text written between `**` and `**` for one record (the `title`
variable of `reportProgress`). -/
def titleOf (progress : ProgressDiff) : String :=
  let title :=
    if progress.Link.utf8ByteSize > 0 then "[" ++ progress.Title ++ "](" ++ progress.Link ++ ")"
    else progress.Title
  if progress.New then "[New] " ++ title
  else if progress.Value != progress.OldValue then
    "[Changed] " ++ title ++ " (" ++ toString progress.OldValue ++ "% → "
      ++ toString progress.Value ++ "%)"
  else title

/-- The bar line written for one record, back quotes included; `none` when one
of the two `strings.Repeat` calls panics. -/
def barOf (value : Int) : Option String :=
  match stringsRepeat "█" (fullBlocks value), stringsRepeat "░" (emptyBlocks value) with
  | some filled, some unfilled => some ("`" ++ filled ++ unfilled ++ " " ++ fmt3d value ++ "%`")
  | _, _ => none

/-- The loop of `reportProgress` that fills `embedBuilder`; `none` when the
function panics. -/
def buildDescription : List ProgressDiff → Nat → String → Option String
  | [], _, acc => some acc
  | progress :: rest, i, acc =>
    let acc := if i != 0 then acc ++ "\n\n" else acc
    let acc := acc ++ ("**" ++ titleOf progress ++ "**\n")
    match barOf progress.Value with
    | none => none
    | some bar => buildDescription rest (i + 1) (acc ++ bar)

/-- The method `reportProgress(client, progressBars)`. It returns nothing: the
error value of `client.Send` is dropped. `none` when it panics. -/
def ProgressPlugin.reportProgress (plugin : ProgressPlugin) (client : DiscordClient)
    (progressBars : List ProgressDiff) : Option DiscordClient :=
  match buildDescription progressBars 0 "" with
  | none => none
  | some description =>
    let embed : Embed :=
      { description := description, footerText := "See " ++ plugin.Url ++ " for more" }
    some (client.Send
      { text := plugin.Message, name := "Progress Updates", avatar := "dragonsteel",
        embed := some embed }).1

/-- The file `last_progress.json` as `readOldProgress` sees it. -/
inductive SnapshotFile where
  | absent
  | unreadable (err : String)
  | stored (items : List Progress)
deriving DecidableEq, Repr

/-- The parsed page as `readProgress` uses it: the text `doc.Html()` returns and
the progress bars the selectors find, in page order. -/
structure Document where
  html : String
  bars : List Progress
deriving DecidableEq, Repr

/-- What one run of the progress plugin works on: the result of `http.Get` and
of parsing the page, the snapshot file, whether writing that file fails, and the
chat channel. -/
structure ProgressWorld where
  page : Except String (Except String Document)
  file : SnapshotFile
  writeErr : Option String
  discord : DiscordClient

/-- The function `readOldProgress()`: a missing file reads as `[]`. -/
def readOldProgress (file : SnapshotFile) : Except String (List Progress) :=
  match file with
  | .absent => .ok []
  | .unreadable err => .error err
  | .stored items => .ok items

/-- The function `readProgress(doc)`. -/
def readProgress (doc : Document) : Except String (List Progress) :=
  if doc.bars.length == 0 then
    .error ("Unexpectedly received empty list of progress bars, content was " ++ doc.html)
  else .ok doc.bars

/-- The function `persistProgress(progress)`; a failed write is taken to leave
the file as it was. -/
def persistProgress (world : ProgressWorld) (progress : List Progress) :
    ProgressWorld × Option String :=
  match world.writeErr with
  | some err => (world, some err)
  | none => ({ world with file := .stored progress }, none)

/-- The method `ProgressPlugin.Check(context)`: the returned error and the world
after the run; `none` when the run panics. -/
def ProgressPlugin.Check (plugin : ProgressPlugin) (world : ProgressWorld) :
    Option (Option String × ProgressWorld) :=
  match world.page with
  | .error err =>
    some (some ("could not read progress site '" ++ plugin.Url ++ "': " ++ err), world)
  | .ok (.error err) => some (some err, world)
  | .ok (.ok doc) =>
    match readOldProgress world.file with
    | .error err => some (some err, world)
    | .ok oldProgress =>
      match readProgress doc with
      | .error err => some (some err, world)
      | .ok currentProgress =>
        match diff oldProgress currentProgress with
        | none => some (none, world)
        | some differences =>
          match plugin.reportProgress world.discord differences with
          | none => none
          | some discord =>
            let r := persistProgress { world with discord := discord } currentProgress
            some (r.2, r.1)

/-! ## plugins/twitter.go -/

/-- The largest `uint64`. -/
def maxUint64 : Nat := 2 ^ 64 - 1

/-- The two hexadecimal digits of a byte, as `%02x` writes them. -/
def hexByte (n : Nat) : String :=
  String.mk [(Nat.toDigits 16 (n / 16 % 16)).headD (Char.ofNat 48),
    (Nat.toDigits 16 (n % 16)).headD (Char.ofNat 48)]

/-- How Go's `strconv.Quote` writes one rune inside the quotes: the double quote
and the backslash are escaped, the control characters get their letter or
`\x` escape, every other rune is written as it is. (Go also escapes the
non-printable runes above U+007F; none of them occurs in a tweet id.) -/
def quoteRune (c : Char) : String :=
  if c.toNat = 34 then "\\\""
  else if c.toNat = 92 then "\\\\"
  else if c.toNat = 7 then "\\a"
  else if c.toNat = 8 then "\\b"
  else if c.toNat = 12 then "\\f"
  else if c.toNat = 10 then "\\n"
  else if c.toNat = 13 then "\\r"
  else if c.toNat = 9 then "\\t"
  else if c.toNat = 11 then "\\v"
  else if c.toNat < 32 ∨ c.toNat = 127 then "\\x" ++ hexByte c.toNat
  else String.singleton c

/-- The call `strconv.Quote(s)`, with which Go's `NumError` prints the input. -/
def strconvQuote (s : String) : String :=
  "\"" ++ String.join (s.toList.map quoteRune) ++ "\""

/-- The digit loop of Go's `strconv.ParseUint` for base 10 and bit size 64,
over the bytes still to read and the value `n` read so far (a `uint64`, hence
the reduction modulo `2^64`). `s0` is the whole input, for the error text. -/
def parseUintLoop (s0 : String) : List Char → Nat → Except String Nat
  | [], n => .ok n
  | c :: cs, n =>
    if '0' ≤ c ∧ c ≤ '9' then
      let d := c.toNat - '0'.toNat
      if n ≥ maxUint64 / 10 + 1 then
        .error ("strconv.ParseUint: parsing " ++ strconvQuote s0 ++ ": value out of range")
      else
        let n1 := (n * 10 + d) % 2 ^ 64
        if n1 < n ∨ n1 > maxUint64 then
          .error ("strconv.ParseUint: parsing " ++ strconvQuote s0 ++ ": value out of range")
        else parseUintLoop s0 cs n1
    else .error ("strconv.ParseUint: parsing " ++ strconvQuote s0 ++ ": invalid syntax")

/-- The call `strconv.ParseUint(s, 10, 64)` of the Go standard library: the
empty string and any byte that is not a decimal digit are syntax errors, a
value above `2^64 - 1` is a range error. -/
def ParseUint (s : String) : Except String Nat :=
  if s.utf8ByteSize == 0 then
    .error ("strconv.ParseUint: parsing " ++ strconvQuote s ++ ": invalid syntax")
  else parseUintLoop s s.toList 0

/-- The fields the plugin reads through a `*twitterscraper.Tweet` pointer
(`RetweetedStatus`, `InReplyToStatus`). -/
structure TweetRef where
  ID : String
  Username : String
deriving DecidableEq, Repr

/-- The fields of `twitterscraper.Tweet` the plugin reads. -/
structure Tweet where
  ID : String
  Username : String
  IsReply : Bool
  RetweetedStatus : Option TweetRef
  InReplyToStatus : Option TweetRef
deriving DecidableEq, Repr

/-- One element of the channel returned by `scraper.GetTweets`. -/
structure TweetResult where
  Tweet : Tweet
  Error : Option String
deriving DecidableEq, Repr

structure TwitterPlugin where
  Account : String
  Nickname : String
  TweetMessage : String
  RetweetMessage : String
  ExcludedRetweetAccounts : List String
  EmbedURL : String
  LoginUser : String
  LoginPassword : String
  LoginCookiePath : String
  retweetExclusions : GoMap Bool
deriving DecidableEq, Repr

/-- What the scraper and the file system answer during one run: the error of
`plugin.login`, the value of `scraper.IsLoggedIn()` afterwards, the elements
the channel of `scraper.GetTweets` yields (newest first), the error of writing
the cookie file, and the answer of `scraper.GetProfile` (the profile name). -/
structure TwitterEnv where
  loginErr : Option String
  loggedIn : Bool
  timeline : List TweetResult
  saveErr : Option String
  profile : Except String String

/-- The method `Validate()`: the plugin after the call and the returned error.
With an empty account the exclusion map is not built. -/
def TwitterPlugin.Validate (plugin : TwitterPlugin) : TwitterPlugin × Option String :=
  if plugin.Account.utf8ByteSize == 0 then
    (plugin, some "account name for Twitter must not be empty")
  else
    ({ plugin with
        retweetExclusions :=
          plugin.ExcludedRetweetAccounts.foldl (fun m account => m.set account true) [] },
      none)

/-- The value of a returning `Check`: the new offset (`none` is `nil`), the
error, and the chat channel after the run. -/
structure CheckResult where
  offset : Option String
  err : Option String
  discord : DiscordClient

/-- The loop of `retrieveTweetsSince` over the elements still to come, with the
`result` slice built so far. -/
def retrieveLoop (lastTweet : Nat) : List TweetResult → List Tweet → Except String (List Tweet)
  | [], result => .ok result
  | tweet :: rest, result =>
    match tweet.Error with
    | some err => .error ("could not read tweets: " ++ err)
    | none =>
      match ParseUint tweet.Tweet.ID with
      | .error err =>
        .error ("tweet ID '" ++ tweet.Tweet.ID ++ "' is not valid snowflake: " ++ err)
      | .ok sortableId =>
        if sortableId ≤ lastTweet then .ok result
        else retrieveLoop lastTweet rest (result ++ [tweet.Tweet])

/-- The method `retrieveTweetsSince(lastTweet)` on the elements the scraper
yields. -/
def retrieveTweetsSince (timeline : List TweetResult) (lastTweet : Nat) :
    Except String (List Tweet) :=
  retrieveLoop lastTweet timeline []

/-- The method `saveLoginState()`. -/
def TwitterPlugin.saveLoginState (plugin : TwitterPlugin) (env : TwitterEnv) : Option String :=
  if plugin.LoginCookiePath.utf8ByteSize == 0 || !env.loggedIn then none else env.saveErr

/-- The first test of the loop body: the tweet is a retweet and the map lookup
`exclude, present := plugin.retweetExclusions[tweet.RetweetedStatus.Username]`
gives `present && exclude`. -/
def TwitterPlugin.excludedRetweet (plugin : TwitterPlugin) (tweet : Tweet) : Bool :=
  match tweet.RetweetedStatus with
  | none => false
  | some retweeted =>
    match plugin.retweetExclusions.get retweeted.Username with
    | some exclude => exclude
    | none => false

/-- The second test of the loop body:
`tweet.IsReply && (tweet.InReplyToStatus == nil || tweet.InReplyToStatus.Username != plugin.Account)`. -/
def TwitterPlugin.foreignReply (plugin : TwitterPlugin) (tweet : Tweet) : Bool :=
  tweet.IsReply &&
    (match tweet.InReplyToStatus with
     | none => true
     | some parent => parent.Username != plugin.Account)

/-- The `text` handed to `Send` for a tweet that passed both tests. -/
def TwitterPlugin.tweetText (plugin : TwitterPlugin) (tweet : Tweet) : String :=
  let message :=
    if plugin.TweetMessage.utf8ByteSize > 0 then plugin.TweetMessage
    else plugin.Nickname ++ " tweeted"
  let baseUrl := if plugin.EmbedURL.utf8ByteSize != 0 then plugin.EmbedURL else "https://fxtwitter.com"
  match tweet.RetweetedStatus with
  | none => message ++ "\n" ++ baseUrl ++ "/" ++ tweet.Username ++ "/status/" ++ tweet.ID
  | some retweeted =>
    let message :=
      if plugin.RetweetMessage.utf8ByteSize > 0 then plugin.RetweetMessage
      else plugin.Nickname ++ " retweeted"
    let text := message ++ "\n" ++ baseUrl ++ "/" ++ retweeted.Username ++ "/status/" ++ retweeted.ID
    text ++ " (<" ++ baseUrl ++ "/" ++ tweet.Username ++ "/status/" ++ tweet.ID ++ ">)"

/-- The call `context.Discord.Send(text, "Twitter", "twitter", nil)` for a
tweet. -/
def TwitterPlugin.tweetMessage (plugin : TwitterPlugin) (tweet : Tweet) : DiscordMessage :=
  { text := plugin.tweetText tweet, name := "Twitter", avatar := "twitter", embed := none }

/-- The body of `for i := len(tweets) - 1; i >= 0; i--` in `Check`, over the
tweets still to visit in visiting order (oldest first), with the running
`lastTweet` and the channel. -/
def TwitterPlugin.checkLoop (plugin : TwitterPlugin) :
    List Tweet → String → DiscordClient → CheckResult
  | [], lastTweet, discord => { offset := some lastTweet, err := none, discord := discord }
  | tweet :: rest, lastTweet, discord =>
    if plugin.excludedRetweet tweet then plugin.checkLoop rest tweet.ID discord
    else if plugin.foreignReply tweet then plugin.checkLoop rest tweet.ID discord
    else
      match discord.Send (plugin.tweetMessage tweet) with
      | (discord, some err) => { offset := some lastTweet, err := some err, discord := discord }
      | (discord, none) => plugin.checkLoop rest tweet.ID discord

/-- The processing loop of `Check` with its two `return`s: the fetched slice
`tweets` (newest first) is walked from its last index down to index 0. -/
def TwitterPlugin.processTweets (plugin : TwitterPlugin) (tweets : List Tweet)
    (lastTweet : String) (discord : DiscordClient) : CheckResult :=
  plugin.checkLoop tweets.reverse lastTweet discord

/-- The fallback of `Check` that fills `plugin.Nickname` from the profile when
neither a nickname nor both message texts are configured; an error of
`GetProfile` is returned as it is. -/
def TwitterPlugin.resolveNickname (plugin : TwitterPlugin) (env : TwitterEnv) :
    Except String TwitterPlugin :=
  if plugin.Nickname.utf8ByteSize == 0 &&
      (plugin.TweetMessage.utf8ByteSize == 0 || plugin.RetweetMessage.utf8ByteSize == 0) then
    match env.profile with
    | .error err => .error err
    | .ok name => .ok { plugin with Nickname := name }
  else .ok plugin

/-- The part of `Check` that follows the fetch and the cookie save: the
`len(tweets) == 0` test, the nickname fallback and the processing loop. -/
def TwitterPlugin.reportFetched (plugin : TwitterPlugin) (env : TwitterEnv)
    (tweets : List Tweet) (lastTweet : String) (discord : DiscordClient) : CheckResult :=
  if tweets.length == 0 then { offset := some lastTweet, err := none, discord := discord }
  else
    match plugin.resolveNickname env with
    | .error err => { offset := some lastTweet, err := some err, discord := discord }
    | .ok plugin => plugin.processTweets tweets lastTweet discord

/-- The method `Check(offset, context)`; `offset` is `none` for a `nil`
interface value. -/
def TwitterPlugin.Check (plugin : TwitterPlugin) (offset : Option String) (env : TwitterEnv)
    (discord : DiscordClient) : CheckResult :=
  match offset with
  | none =>
    { offset := none, err := some "latest Tweet ID must be specified as offset for start",
      discord := discord }
  | some lastTweet =>
    if lastTweet.utf8ByteSize == 0 then
      { offset := none, err := some "latest Tweet ID must be specified as offset for start",
        discord := discord }
    else
      match ParseUint lastTweet with
      | .error err =>
        { offset := none,
          err := some ("latest Tweet ID '" ++ lastTweet ++ "' is not valid snowflake: " ++ err),
          discord := discord }
      | .ok sortableLastTweet =>
        match env.loginErr with
        | some err =>
          { offset := some lastTweet, err := some ("could not log into Twitter: " ++ err),
            discord := discord }
        | none =>
          if !env.loggedIn then
            { offset := some lastTweet,
              err := some "was not logged into Twitter, maybe try other credentials",
              discord := discord }
          else
            match retrieveTweetsSince env.timeline sortableLastTweet with
            | .error err => { offset := some lastTweet, err := some err, discord := discord }
            | .ok tweets =>
              match plugin.saveLoginState env with
              | some err => { offset := some lastTweet, err := some err, discord := discord }
              | none => plugin.reportFetched env tweets lastTweet discord

/-! ## Notions used to state the properties -/

/-- The record `diff` stores for the current item `v`, given the map of the
previous items. -/
def diffRecord (keyed : GoMap Progress) (v : Progress) : ProgressDiff :=
  match keyed.get v.Title with
  | some existing => ProgressDiff.mk v.Title v.Link existing.Value v.Value false
  | none => ProgressDiff.mk v.Title v.Link 0 v.Value true

/-- The test `!existedBefore || oldValue != v.Value` of `diff` for the current
item `v`. -/
def isChange (keyed : GoMap Progress) (v : Progress) : Bool :=
  match keyed.get v.Title with
  | some existing => existing.Value != v.Value
  | none => true

/-- A tweet is suppressed when one of the two tests of the loop body holds. -/
def TwitterPlugin.suppressed (plugin : TwitterPlugin) (tweet : Tweet) : Bool :=
  plugin.excludedRetweet tweet || plugin.foreignReply tweet

/-- The messages for the tweets of `items` that are not suppressed, one each, in
the order of `items`. -/
def TwitterPlugin.dispatched (plugin : TwitterPlugin) (items : List Tweet) :
    List DiscordMessage :=
  (items.filter fun tweet => !plugin.suppressed tweet).map plugin.tweetMessage

/-- The id of `tweet` is a valid snowflake above `c`. -/
def idAbove (c : Nat) (tweet : Tweet) : Bool :=
  match ParseUint tweet.ID with
  | .ok x => decide (c < x)
  | .error _ => false

/-- Both ids are valid snowflakes and the id of `a` is above the id of `b`. -/
def newerThan (a b : Tweet) : Bool :=
  match ParseUint a.ID, ParseUint b.ID with
  | .ok x, .ok y => decide (y < x)
  | _, _ => false

/-- The shape of a fetched slice for the cursor value `c`: newest first with
strictly decreasing ids, all above `c`. -/
def FetchedSince (c : Nat) (tweets : List Tweet) : Prop :=
  tweets.Pairwise (fun a b => newerThan a b = true) ∧ ∀ tweet ∈ tweets, idAbove c tweet = true

/-! ## Example data -/

/-- A validated plugin for the account `author` that excludes retweets of `X`. -/
def examplePlugin : TwitterPlugin :=
  (TwitterPlugin.Validate
    { Account := "author", Nickname := "Author", TweetMessage := "", RetweetMessage := "",
      ExcludedRetweetAccounts := ["X"], EmbedURL := "", LoginUser := "", LoginPassword := "",
      LoginCookiePath := "", retweetExclusions := [] }).1

/-- The fetched slice of the scenario of section 8: 103 is a retweet of `X`,
102 a normal tweet, 101 a reply to another account. -/
def exampleFetched : List Tweet :=
  [ { ID := "103", Username := "author", IsReply := false,
      RetweetedStatus := some { ID := "900", Username := "X" }, InReplyToStatus := none },
    { ID := "102", Username := "author", IsReply := false,
      RetweetedStatus := none, InReplyToStatus := none },
    { ID := "101", Username := "author", IsReply := true,
      RetweetedStatus := none, InReplyToStatus := some { ID := "55", Username := "other" } } ]

/-- A normal tweet with id 104. -/
def exampleTweet104 : Tweet :=
  { ID := "104", Username := "author", IsReply := false,
    RetweetedStatus := none, InReplyToStatus := none }

/-- A channel on which every send succeeds. -/
def reliableChannel : DiscordClient := { calls := [], outcome := fun _ _ => none }

/-- A channel on which the first send succeeds and every later one fails. -/
def secondSendFails : DiscordClient :=
  { calls := [], outcome := fun calls _ => if calls.length = 0 then none else some "rate limited" }

/-- A validated plugin without nickname or message texts, so that `Check` asks
the scraper for the profile name. -/
def unnamedPlugin : TwitterPlugin :=
  (TwitterPlugin.Validate
    { Account := "author", Nickname := "", TweetMessage := "", RetweetMessage := "",
      ExcludedRetweetAccounts := ["X"], EmbedURL := "", LoginUser := "", LoginPassword := "",
      LoginCookiePath := "", retweetExclusions := [] }).1

/-- A run in which login and fetch work, the timeline holds the tweets of
`exampleFetched` followed by the tweet 100 already seen, and the profile lookup
fails. -/
def profileLookupFails : TwitterEnv :=
  { loginErr := none, loggedIn := true,
    timeline :=
      exampleFetched.map (fun tweet => { Tweet := tweet, Error := none })
        ++ [{ Tweet := { ID := "100", Username := "author", IsReply := false,
                         RetweetedStatus := none, InReplyToStatus := none },
              Error := none }],
    saveErr := none, profile := .error "profile unavailable" }

/-- A run in which login, fetch, cookie save and profile lookup all work, on the
same timeline. -/
def healthyRun : TwitterEnv :=
  { profileLookupFails with profile := .ok "Author" }

/-- A retweet of `Y`, an author that is not excluded, that the scraper also
flags as a reply and that has no parent tweet attached. -/
def replyFlaggedRetweet : Tweet :=
  { ID := "104", Username := "author", IsReply := true,
    RetweetedStatus := some { ID := "901", Username := "Y" }, InReplyToStatus := none }

/-- A progress plugin configuration. -/
def progressExample : ProgressPlugin := { Url := "https://example.org", Message := "Progress!" }

/-- A channel on which every send fails. -/
def failingChannel : DiscordClient :=
  { calls := [], outcome := fun _ _ => some "webhook unreachable" }

/-- The page of the example: one bar, `A` at 75. -/
def pageWithA75 : Document :=
  { html := "<html><body>A 75</body></html>", bars := [Progress.mk "A" "link1" 75] }

/-- The world before a run: the snapshot file holds `[{A, link1, 40}]`, the page
shows `[{A, link1, 75}]`, the file can be written and every send fails. -/
def worldBeforeFailedSend : ProgressWorld :=
  { page := .ok (.ok pageWithA75),
    file := .stored [Progress.mk "A" "link1" 40],
    writeErr := none,
    discord := failingChannel }

/-- The composite message `reportProgress` builds for the change of `A` from 40
to 75. -/
def changedMessage : DiscordMessage :=
  { text := "Progress!", name := "Progress Updates", avatar := "dragonsteel",
    embed := some
      { description :=
          "**[Changed] [A](link1) (40% → 75%)**\n`██████████████████████████████░░░░░░░░░░  75%`",
        footerText := "See https://example.org for more" } }

/-- The world after that run: the message was handed to the channel and the
snapshot file holds the page's bars. -/
def worldAfterFailedSend : ProgressWorld :=
  { worldBeforeFailedSend with
    file := .stored [Progress.mk "A" "link1" 75],
    discord := { failingChannel with calls := [changedMessage] } }

/-! ## Lemmas on `diff` -/

theorem lookup_none_iff {β : Type} (k : String) (l : List (String × β)) :
    List.lookup k l = none ↔ ∀ p ∈ l, p.1 ≠ k := by
  induction l with
  | nil => simp
  | cons p l ih =>
    obtain ⟨a, b⟩ := p
    by_cases h : k = a
    · subst h
      simp [List.lookup]
    · have h2 : (k == a) = false := by simpa using h
      simp [List.lookup, h2, ih, Ne.symm h]

theorem lookup_some_mem {β : Type} (k : String) (v : β) (l : List (String × β))
    (h : List.lookup k l = some v) : (k, v) ∈ l := by
  induction l with
  | nil => simp at h
  | cons p l ih =>
    obtain ⟨a, b⟩ := p
    by_cases hk : k = a
    · subst hk
      simp [List.lookup] at h
      simp [h]
    · have h2 : (k == a) = false := by simpa using hk
      simp [List.lookup, h2] at h
      exact List.mem_cons_of_mem _ (ih h)

theorem lookup_of_mem_nodup {β : Type} (k : String) (v : β) (l : List (String × β))
    (hn : (l.map Prod.fst).Nodup) (h : (k, v) ∈ l) : List.lookup k l = some v := by
  induction l with
  | nil => simp at h
  | cons p l ih =>
    obtain ⟨a, b⟩ := p
    simp only [List.map_cons, List.nodup_cons] at hn
    rcases List.mem_cons.mp h with h1 | h1
    · have hk : k = a := (Prod.mk.inj h1).1
      have hv : v = b := (Prod.mk.inj h1).2
      subst hk hv
      simp [List.lookup]
    · have hk : k ≠ a := by
        intro hk
        subst hk
        exact hn.1 (List.mem_map.mpr ⟨(k, v), h1, rfl⟩)
      have h2 : (k == a) = false := by simpa using hk
      simp [List.lookup, h2, ih hn.2 h1]

theorem oldKeyed_eq (old : List Progress) :
    oldKeyed old = (old.map fun v => (v.Title, v)).reverse := by
  have key : ∀ (l : List Progress) (m : GoMap Progress),
      l.foldl (fun m v => m.set v.Title v) m = (l.map fun v => (v.Title, v)).reverse ++ m := by
    intro l
    induction l with
    | nil => intro m; simp
    | cons a l ih =>
      intro m
      rw [List.foldl_cons, ih]
      simp [GoMap.set]
  simpa [oldKeyed] using key old []

theorem oldKeyed_get_none_iff (old : List Progress) (k : String) :
    (oldKeyed old).get k = none ↔ ∀ o ∈ old, o.Title ≠ k := by
  rw [GoMap.get, lookup_none_iff, oldKeyed_eq]
  constructor
  · intro h o ho
    exact h (o.Title, o) (by
      simp only [List.mem_reverse, List.mem_map]
      exact ⟨o, ho, rfl⟩)
  · intro h p hp
    simp only [List.mem_reverse, List.mem_map] at hp
    obtain ⟨o, ho, rfl⟩ := hp
    exact h o ho

theorem oldKeyed_get_some_mem (old : List Progress) (k : String) (e : Progress)
    (h : (oldKeyed old).get k = some e) : e ∈ old ∧ e.Title = k := by
  have := lookup_some_mem k e _ h
  rw [oldKeyed_eq] at this
  simp only [List.mem_reverse, List.mem_map, Prod.mk.injEq] at this
  obtain ⟨o, ho, h1, h2⟩ := this
  subst h2
  exact ⟨ho, h1⟩

theorem oldKeyed_get_of_mem (old : List Progress) (hd : (old.map fun o => o.Title).Nodup)
    (o : Progress) (ho : o ∈ old) : (oldKeyed old).get o.Title = some o := by
  rw [GoMap.get]
  apply lookup_of_mem_nodup
  · rw [oldKeyed_eq, List.map_reverse, List.nodup_reverse, List.map_map]
    exact hd
  · rw [oldKeyed_eq]
    simp only [List.mem_reverse, List.mem_map]
    exact ⟨o, ho, rfl⟩

theorem diff_foldl (keyed : GoMap Progress) (new : List Progress) (acc : List ProgressDiff)
    (b : Bool) :
    new.foldl (diffStep keyed) (acc, b)
      = (acc ++ new.map (diffRecord keyed), b && new.all fun v => !isChange keyed v) := by
  induction new generalizing acc b with
  | nil => simp
  | cons v new ih =>
    rw [List.foldl_cons]
    have hstep : diffStep keyed (acc, b) v
        = (acc ++ [diffRecord keyed v], b && !isChange keyed v) := by
      unfold diffStep diffRecord isChange
      cases hk : keyed.get v.Title with
      | none => cases b <;> simp
      | some e => by_cases hv : e.Value = v.Value <;> cases b <;> simp [hv, bne]
    rw [hstep, ih]
    simp [Bool.and_assoc]

theorem diff_eq (old new : List Progress) :
    diff old new
      = if new.all (fun v => !isChange (oldKeyed old) v) then none
        else some (new.map (diffRecord (oldKeyed old))) := by
  unfold diff
  simp [diff_foldl]

/-! ## Properties of `diff` -/

theorem isChange_false_iff (old : List Progress) (hd : (old.map fun o => o.Title).Nodup)
    (v : Progress) :
    isChange (oldKeyed old) v = false ↔ ∃ o ∈ old, o.Title = v.Title ∧ o.Value = v.Value := by
  unfold isChange
  cases hk : (oldKeyed old).get v.Title with
  | none =>
    have hn := (oldKeyed_get_none_iff old v.Title).mp hk
    simp only [Bool.true_eq_false, false_iff, not_exists, not_and]
    intro o ho ht
    exact absurd ht (hn o ho)
  | some e =>
    obtain ⟨he, het⟩ := oldKeyed_get_some_mem old v.Title e hk
    constructor
    · intro h
      exact ⟨e, he, het, by simpa [bne] using h⟩
    · rintro ⟨o, ho, hot, hov⟩
      have := oldKeyed_get_of_mem old hd o ho
      rw [hot, hk] at this
      cases this
      simp [bne, hov]

/-- C4. With pairwise-distinct previous titles, `diff` returns `nil` exactly when
every current item has a previous item of the same title and equal value; and
`diff(A, A)` is `nil`. -/
theorem diff_nil_iff_unchanged (old new : List Progress)
    (hd : (old.map fun o => o.Title).Nodup) :
    (diff old new = none ↔
        ∀ v ∈ new, ∃ o ∈ old, o.Title = v.Title ∧ o.Value = v.Value)
      ∧ diff old old = none := by
  have key : ∀ new : List Progress, diff old new = none ↔
      ∀ v ∈ new, ∃ o ∈ old, o.Title = v.Title ∧ o.Value = v.Value := by
    intro new
    rw [diff_eq]
    constructor
    · intro h v hv
      by_cases hall : (new.all fun v => !isChange (oldKeyed old) v) = true
      · have := List.all_eq_true.mp hall v hv
        exact (isChange_false_iff old hd v).mp (by simpa using this)
      · simp [hall] at h
    · intro h
      have hall : (new.all fun v => !isChange (oldKeyed old) v) = true := by
        apply List.all_eq_true.mpr
        intro v hv
        simp [(isChange_false_iff old hd v).mpr (h v hv)]
      simp [hall]
  exact ⟨key new, (key old).mpr fun v hv => ⟨v, hv, rfl, rfl⟩⟩

theorem diff_nil_iff_unchanged_witness :
    ([Progress.mk "A" "link1" 40].map fun o => o.Title).Nodup
      ∧ ((diff [Progress.mk "A" "link1" 40] [Progress.mk "A" "link1" 40] = none ↔
          ∀ v ∈ [Progress.mk "A" "link1" 40],
            ∃ o ∈ [Progress.mk "A" "link1" 40], o.Title = v.Title ∧ o.Value = v.Value)
        ∧ diff [Progress.mk "A" "link1" 40] [Progress.mk "A" "link1" 40] = none) :=
  ⟨by decide, diff_nil_iff_unchanged _ _ (by decide)⟩

theorem diff_some_of_change (old new : List Progress) (i : Nat) (v : Progress)
    (hv : new[i]? = some v) (hc : isChange (oldKeyed old) v = true) :
    ∃ r, diff old new = some r ∧ r ≠ [] ∧ r.length = new.length
      ∧ r[i]? = some (diffRecord (oldKeyed old) v) := by
  have hmem : v ∈ new := List.getElem?_mem hv
  have hall : ¬ (new.all fun v => !isChange (oldKeyed old) v) = true := by
    intro hall
    have := List.all_eq_true.mp hall v hmem
    simp [hc] at this
  refine ⟨new.map (diffRecord (oldKeyed old)), ?_, ?_, by simp, by simp [hv]⟩
  · rw [diff_eq]
    simp [hall]
  · intro h
    rw [List.map_eq_nil_iff] at h
    subst h
    simp at hmem

/-- C6. With pairwise-distinct previous titles, for the current item `v` at
index `i`: (i) if no previous item has its title, the result of `diff` is
non-empty and its record at `i` is `v`'s title and link with `OldValue = 0`,
`Value = v.Value` and `New = true`, whatever the value; (ii) if a previous item
`o` has its title and another value, the result is non-empty and the record at
`i` is `v`'s title and link with `OldValue = o.Value`, `Value = v.Value` and
`New = false`. -/
theorem diff_new_and_changed (old new : List Progress)
    (hd : (old.map fun o => o.Title).Nodup) (i : Nat) (v : Progress)
    (hv : new[i]? = some v) :
    ((∀ o ∈ old, o.Title ≠ v.Title) →
        ∃ r, diff old new = some r ∧ r ≠ []
          ∧ r[i]? = some (ProgressDiff.mk v.Title v.Link 0 v.Value true))
      ∧ (∀ o ∈ old, o.Title = v.Title → o.Value ≠ v.Value →
        ∃ r, diff old new = some r ∧ r ≠ []
          ∧ r[i]? = some (ProgressDiff.mk v.Title v.Link o.Value v.Value false)) := by
  constructor
  · intro habs
    have hk := (oldKeyed_get_none_iff old v.Title).mpr habs
    obtain ⟨r, h1, h2, _, h4⟩ :=
      diff_some_of_change old new i v hv (by simp [isChange, hk])
    exact ⟨r, h1, h2, by simpa [diffRecord, hk] using h4⟩
  · intro o ho hot hov
    have hk := oldKeyed_get_of_mem old hd o ho
    rw [hot] at hk
    obtain ⟨r, h1, h2, _, h4⟩ :=
      diff_some_of_change old new i v hv (by simp [isChange, hk, bne, hov])
    exact ⟨r, h1, h2, by simpa [diffRecord, hk] using h4⟩

theorem diff_new_and_changed_witness :
    ([Progress.mk "A" "link1" 40].map fun o => o.Title).Nodup
      ∧ [Progress.mk "A" "link1" 75][0]? = some (Progress.mk "A" "link1" 75)
      ∧ Progress.mk "A" "link1" 40 ∈ [Progress.mk "A" "link1" 40]
      ∧ (∃ r, diff [Progress.mk "A" "link1" 40] [Progress.mk "A" "link1" 75] = some r ∧ r ≠ []
          ∧ r[0]? = some (ProgressDiff.mk "A" "link1" 40 75 false))
      ∧ diff [Progress.mk "A" "link1" 40] [Progress.mk "A" "link1" 75]
          = some [ProgressDiff.mk "A" "link1" 40 75 false] :=
  ⟨by decide, by decide, by decide,
    (diff_new_and_changed [Progress.mk "A" "link1" 40] [Progress.mk "A" "link1" 75]
      (by decide) 0 (Progress.mk "A" "link1" 75) (by decide)).2
      (Progress.mk "A" "link1" 40) (by decide) (by decide) (by decide),
    by decide⟩

/-- C5, as stated, fails: for previous `[{A, link1, 40}]` and current
`[{A, link1, 40}, {B, link2, 10}]` the result of `diff` holds a record for the
unchanged `A` with `New = false` and `OldValue = Value`, so it is not the one
record for `B`. -/
theorem diff_reports_unchanged_item :
    diff [Progress.mk "A" "link1" 40] [Progress.mk "A" "link1" 40, Progress.mk "B" "link2" 10]
        = some [ProgressDiff.mk "A" "link1" 40 40 false, ProgressDiff.mk "B" "link2" 0 10 true]
      ∧ ¬ (∀ (old new : List Progress) (r : List ProgressDiff), diff old new = some r →
            ∀ p ∈ r, ¬ (p.New = false ∧ p.OldValue = p.Value)) := by
  refine ⟨by decide, fun h => ?_⟩
  exact h [Progress.mk "A" "link1" 40] [Progress.mk "A" "link1" 40, Progress.mk "B" "link2" 10]
    [ProgressDiff.mk "A" "link1" 40 40 false, ProgressDiff.mk "B" "link2" 0 10 true]
    (by decide) (ProgressDiff.mk "A" "link1" 40 40 false) (by decide) ⟨rfl, rfl⟩

/-- C5, amended. A non-nil result of `diff` has one record per current item, in
the order of the current list, unchanged items included: with pairwise-distinct
previous titles, a current item `v` at index `i` whose title is present in the
previous list with an equal value has at `i` the record with `v`'s title and
link, `New = false` and `OldValue = Value = v.Value`, and `reportProgress`
writes that record's title without the `[New]` or `[Changed]` mark. -/
theorem diff_keeps_unchanged_item (old new : List Progress)
    (hd : (old.map fun o => o.Title).Nodup) (r : List ProgressDiff)
    (hr : diff old new = some r) (i : Nat) (v o : Progress) (hv : new[i]? = some v)
    (ho : o ∈ old) (hot : o.Title = v.Title) (hov : o.Value = v.Value) :
    r.length = new.length
      ∧ r[i]? = some (ProgressDiff.mk v.Title v.Link v.Value v.Value false)
      ∧ titleOf (ProgressDiff.mk v.Title v.Link v.Value v.Value false)
          = (if v.Link.utf8ByteSize > 0 then "[" ++ v.Title ++ "](" ++ v.Link ++ ")"
             else v.Title) := by
  have hk := oldKeyed_get_of_mem old hd o ho
  rw [hot] at hk
  rw [diff_eq] at hr
  split at hr
  · simp at hr
  · have hr2 : r = new.map (diffRecord (oldKeyed old)) := by
      simpa using hr.symm
    subst hr2
    refine ⟨by simp, ?_, ?_⟩
    · simp [hv, diffRecord, hk, hov]
    · simp [titleOf]

theorem diff_keeps_unchanged_item_witness :
    ([Progress.mk "A" "link1" 40].map fun o => o.Title).Nodup
      ∧ diff [Progress.mk "A" "link1" 40]
          [Progress.mk "A" "link1" 40, Progress.mk "B" "link2" 10]
          = some [ProgressDiff.mk "A" "link1" 40 40 false, ProgressDiff.mk "B" "link2" 0 10 true]
      ∧ [ProgressDiff.mk "A" "link1" 40 40 false, ProgressDiff.mk "B" "link2" 0 10 true].length
          = [Progress.mk "A" "link1" 40, Progress.mk "B" "link2" 10].length
      ∧ [ProgressDiff.mk "A" "link1" 40 40 false, ProgressDiff.mk "B" "link2" 0 10 true][0]?
          = some (ProgressDiff.mk "A" "link1" 40 40 false)
      ∧ titleOf (ProgressDiff.mk "A" "link1" 40 40 false) = "[A](link1)" := by
  have h := diff_keeps_unchanged_item [Progress.mk "A" "link1" 40]
    [Progress.mk "A" "link1" 40, Progress.mk "B" "link2" 10] (by decide)
    [ProgressDiff.mk "A" "link1" 40 40 false, ProgressDiff.mk "B" "link2" 0 10 true]
    (by decide) 0 (Progress.mk "A" "link1" 40) (Progress.mk "A" "link1" 40)
    (by decide) (by decide) rfl rfl
  exact ⟨by decide, by decide, h.1, h.2.1, by decide⟩

/-! ## The progress bar -/

theorem fullBlocks_eq (v : Int) : fullBlocks v = 2 * v / 5 := by
  unfold fullBlocks blockSize
  have h : (v : ℚ) / (5 / 2) = ((2 * v : ℤ) : ℚ) / ((5 : ℕ) : ℚ) := by
    push_cast
    ring
  rw [h, Rat.floor_intCast_div_natCast]
  rfl

theorem blockCount_floor : Int.floor blockCount = 40 := by
  have h : blockCount = ((40 : ℤ) : ℚ) := by
    unfold blockCount blockSize
    norm_num
  rw [h, Int.floor_intCast]

theorem emptyBlocks_eq (v : Int) : emptyBlocks v = 40 - 2 * v / 5 := by
  unfold emptyBlocks
  rw [blockCount_floor, fullBlocks_eq]

theorem barOf_eq (v : Int) (h0 : 0 ≤ 2 * v / 5) (h1 : 2 * v / 5 ≤ 40) :
    barOf v = some ("`" ++ String.join (List.replicate (2 * v / 5).toNat "█")
      ++ String.join (List.replicate (40 - 2 * v / 5).toNat "░") ++ " " ++ fmt3d v ++ "%`") := by
  unfold barOf stringsRepeat
  rw [fullBlocks_eq, emptyBlocks_eq]
  have h2 : ¬ (2 * v / 5 < 0) := by omega
  have h3 : ¬ (40 - 2 * v / 5 < 0) := by omega
  simp [h2, h3]

/-- C10, as stated, fails at 101 (and 102): the value is outside `0..100`, yet
neither repeat count is negative and the bar is rendered, with 40 filled
segments and no unfilled one. -/
theorem bar_counts_at_101 :
    ¬ ((0 : Int) ≤ 101 ∧ (101 : Int) ≤ 100)
      ∧ fullBlocks 101 = 40 ∧ emptyBlocks 101 = 0
      ∧ ¬ (fullBlocks 101 < 0 ∨ emptyBlocks 101 < 0)
      ∧ barOf 101 = some "`████████████████████████████████████████ 101%`" := by
  have hf : fullBlocks 101 = 40 := by rw [fullBlocks_eq]; decide
  have he : emptyBlocks 101 = 0 := by rw [emptyBlocks_eq]; decide
  refine ⟨by decide, hf, he, ?_, ?_⟩
  · rw [hf, he]; decide
  · rw [barOf_eq 101 (by decide) (by decide)]
    decide

/-- C10, amended. For `0 ≤ v ≤ 100` the filled count is `⌊v / 2.5⌋ = ⌊2v / 5⌋`
and the unfilled count `40 - ⌊2v / 5⌋`, both non-negative and 40 in total, and
the bar is that many filled segments followed by that many unfilled ones; for
`v < 0` or `v > 102` one of the two counts is negative and the rendering
panics; at 101 and 102 the counts are still 40 and 0. -/
theorem bar_segments (v : Int) :
    (0 ≤ v → v ≤ 100 →
        fullBlocks v = 2 * v / 5 ∧ emptyBlocks v = 40 - 2 * v / 5
          ∧ 0 ≤ fullBlocks v ∧ 0 ≤ emptyBlocks v ∧ fullBlocks v + emptyBlocks v = 40
          ∧ stringsRepeat "█" (fullBlocks v) ≠ none ∧ stringsRepeat "░" (emptyBlocks v) ≠ none
          ∧ barOf v = some ("`" ++ String.join (List.replicate (2 * v / 5).toNat "█")
              ++ String.join (List.replicate (40 - 2 * v / 5).toNat "░")
              ++ " " ++ fmt3d v ++ "%`"))
      ∧ (v < 0 ∨ 102 < v → (fullBlocks v < 0 ∨ emptyBlocks v < 0) ∧ barOf v = none)
      ∧ (v = 101 ∨ v = 102 → fullBlocks v = 40 ∧ emptyBlocks v = 0) := by
  refine ⟨?_, ?_, ?_⟩
  · intro h0 h100
    have hf := fullBlocks_eq v
    have he := emptyBlocks_eq v
    have h1 : 0 ≤ 2 * v / 5 := by omega
    have h2 : 2 * v / 5 ≤ 40 := by omega
    refine ⟨hf, he, by omega, by omega, by omega, ?_, ?_, barOf_eq v h1 h2⟩
    · have : ¬ (fullBlocks v < 0) := by omega
      simp [stringsRepeat, this]
    · have : ¬ (emptyBlocks v < 0) := by omega
      simp [stringsRepeat, this]
  · intro h
    have hf := fullBlocks_eq v
    have he := emptyBlocks_eq v
    have hneg : fullBlocks v < 0 ∨ emptyBlocks v < 0 := by omega
    refine ⟨hneg, ?_⟩
    unfold barOf stringsRepeat
    rcases hneg with h1 | h1
    · simp [h1]
    · by_cases h2 : fullBlocks v < 0 <;> simp [h1, h2]
  · intro h
    have hf := fullBlocks_eq v
    have he := emptyBlocks_eq v
    constructor <;> omega

theorem bar_segments_witness :
    (0 : Int) ≤ 50 ∧ (50 : Int) ≤ 100
      ∧ (fullBlocks 50 = 2 * 50 / 5 ∧ emptyBlocks 50 = 40 - 2 * 50 / 5
          ∧ 0 ≤ fullBlocks 50 ∧ 0 ≤ emptyBlocks 50 ∧ fullBlocks 50 + emptyBlocks 50 = 40
          ∧ stringsRepeat "█" (fullBlocks 50) ≠ none ∧ stringsRepeat "░" (emptyBlocks 50) ≠ none
          ∧ barOf 50 = some ("`" ++ String.join (List.replicate (2 * 50 / 5 : Int).toNat "█")
              ++ String.join (List.replicate (40 - 2 * 50 / 5 : Int).toNat "░")
              ++ " " ++ fmt3d 50 ++ "%`"))
      ∧ ("`" ++ String.join (List.replicate (2 * 50 / 5 : Int).toNat "█")
              ++ String.join (List.replicate (40 - 2 * 50 / 5 : Int).toNat "░")
              ++ " " ++ fmt3d 50 ++ "%`") = "`████████████████████░░░░░░░░░░░░░░░░░░░░  50%`"
      ∧ ((-1 : Int) < 0 ∨ (102 : Int) < -1)
      ∧ ((fullBlocks (-1) < 0 ∨ emptyBlocks (-1) < 0) ∧ barOf (-1) = none)
      ∧ (fullBlocks 102 = 40 ∧ emptyBlocks 102 = 0) :=
  ⟨by decide, by decide, (bar_segments 50).1 (by decide) (by decide), by decide,
    by decide, (bar_segments (-1)).2.1 (by decide), (bar_segments 102).2.2 (by decide)⟩

/-! ## The progress run and a failed send -/

theorem buildDescription_changed_A :
    buildDescription [ProgressDiff.mk "A" "link1" 40 75 false] 0 ""
      = some "**[Changed] [A](link1) (40% → 75%)**\n`██████████████████████████████░░░░░░░░░░  75%`" := by
  simp only [buildDescription]
  rw [barOf_eq 75 (by decide) (by decide)]
  decide

/-- C7, the run the claim excludes: from the snapshot `[{A, link1, 40}]` and the
page `[{A, link1, 75}]`, on a channel where every send fails, `Check` makes its
one send, which fails, returns no error and leaves `[{A, link1, 75}]` in the
snapshot file; the next run on the same page has nothing to report and sends
nothing. -/
theorem progress_check_persists_after_failed_send :
    ProgressPlugin.Check progressExample worldBeforeFailedSend
        = some (none, worldAfterFailedSend)
      ∧ (failingChannel.Send changedMessage).2 = some "webhook unreachable"
      ∧ worldBeforeFailedSend.file = .stored [Progress.mk "A" "link1" 40]
      ∧ worldAfterFailedSend.file = .stored [Progress.mk "A" "link1" 75]
      ∧ worldAfterFailedSend.discord.calls = [changedMessage]
      ∧ ProgressPlugin.Check progressExample worldAfterFailedSend
          = some (none, worldAfterFailedSend) := by
  have hd : diff [Progress.mk "A" "link1" 40] [Progress.mk "A" "link1" 75]
      = some [ProgressDiff.mk "A" "link1" 40 75 false] := by decide
  have hd2 : diff [Progress.mk "A" "link1" 75] [Progress.mk "A" "link1" 75] = none := by decide
  have hb : readProgress pageWithA75 = .ok [Progress.mk "A" "link1" 75] := rfl
  refine ⟨?_, rfl, rfl, rfl, rfl, ?_⟩
  · simp only [progressExample, worldBeforeFailedSend, ProgressPlugin.Check, readOldProgress,
      hb, hd, ProgressPlugin.reportProgress, buildDescription_changed_A, persistProgress]
    rfl
  · simp only [progressExample, worldAfterFailedSend, worldBeforeFailedSend,
      ProgressPlugin.Check, readOldProgress, hb, hd2]

/-! ## Lemmas on the processing loop of `Check` -/

theorem dispatched_nil (plugin : TwitterPlugin) : plugin.dispatched [] = [] := rfl

theorem dispatched_cons (plugin : TwitterPlugin) (t : Tweet) (ts : List Tweet) :
    plugin.dispatched (t :: ts)
      = if plugin.suppressed t then plugin.dispatched ts
        else plugin.tweetMessage t :: plugin.dispatched ts := by
  unfold TwitterPlugin.dispatched
  cases h : plugin.suppressed t <;> simp [List.filter, h]

theorem checkLoop_suppressed (plugin : TwitterPlugin) (t : Tweet) (rest : List Tweet)
    (last : String) (d : DiscordClient) (h : plugin.suppressed t = true) :
    plugin.checkLoop (t :: rest) last d = plugin.checkLoop rest t.ID d := by
  unfold TwitterPlugin.suppressed at h
  rw [TwitterPlugin.checkLoop]
  cases h1 : plugin.excludedRetweet t
  · simp [h1] at h
    simp [h]
  · simp

theorem checkLoop_send (plugin : TwitterPlugin) (t : Tweet) (rest : List Tweet)
    (last : String) (d : DiscordClient) (h : plugin.suppressed t = false) :
    plugin.checkLoop (t :: rest) last d
      = match d.outcome d.calls (plugin.tweetMessage t) with
        | some err =>
          { offset := some last, err := some err,
            discord := { d with calls := d.calls ++ [plugin.tweetMessage t] } }
        | none =>
          plugin.checkLoop rest t.ID { d with calls := d.calls ++ [plugin.tweetMessage t] } := by
  unfold TwitterPlugin.suppressed at h
  simp only [Bool.or_eq_false_iff] at h
  rw [TwitterPlugin.checkLoop]
  simp only [h.1, h.2, DiscordClient.Send]
  cases d.outcome d.calls (plugin.tweetMessage t) <;> simp

theorem getLast_cons_getD (t : Tweet) (pre : List Tweet) (last : String) :
    (((t :: pre).getLast?.map fun x => x.ID).getD last)
      = ((pre.getLast?.map fun x => x.ID).getD t.ID) := by
  cases pre with
  | nil => simp
  | cons p pre =>
    rw [List.getLast?_cons_cons]
    cases h : (p :: pre).getLast? with
    | none => simp at h
    | some x => simp

theorem checkLoop_through (plugin : TwitterPlugin) (pre rest : List Tweet) (last : String)
    (d : DiscordClient) (h : SendsSucceed d (plugin.dispatched pre)) :
    plugin.checkLoop (pre ++ rest) last d
      = plugin.checkLoop rest ((pre.getLast?.map fun x => x.ID).getD last)
          { d with calls := d.calls ++ plugin.dispatched pre } := by
  induction pre generalizing last d with
  | nil => simp [dispatched_nil]
  | cons t pre ih =>
    rw [getLast_cons_getD, List.cons_append]
    cases hs : plugin.suppressed t
    · rw [dispatched_cons, hs] at h
      simp only [Bool.false_eq_true, if_false, SendsSucceed] at h
      have h2 := h.2
      simp only [DiscordClient.Send] at h2
      rw [checkLoop_send plugin t _ last d hs, h.1]
      simp only
      rw [ih _ _ h2, dispatched_cons, hs]
      simp
    · rw [dispatched_cons, hs] at h
      simp only [if_true] at h
      rw [checkLoop_suppressed plugin t _ last d hs, ih _ _ h, dispatched_cons, hs]
      simp

theorem checkLoop_all_sent (plugin : TwitterPlugin) (items : List Tweet) (last : String)
    (d : DiscordClient) (h : SendsSucceed d (plugin.dispatched items)) :
    plugin.checkLoop items last d
      = { offset := some ((items.getLast?.map fun x => x.ID).getD last), err := none,
          discord := { d with calls := d.calls ++ plugin.dispatched items } } := by
  have := checkLoop_through plugin items [] last d h
  rw [List.append_nil] at this
  rw [this, TwitterPlugin.checkLoop]

theorem checkLoop_first_failure (plugin : TwitterPlugin) (pre post : List Tweet) (t : Tweet)
    (last e : String) (d : DiscordClient) (h : SendsSucceed d (plugin.dispatched pre))
    (hs : plugin.suppressed t = false)
    (hf : d.outcome (d.calls ++ plugin.dispatched pre) (plugin.tweetMessage t) = some e) :
    plugin.checkLoop (pre ++ t :: post) last d
      = { offset := some ((pre.getLast?.map fun x => x.ID).getD last), err := some e,
          discord :=
            { d with calls := d.calls ++ plugin.dispatched pre ++ [plugin.tweetMessage t] } } := by
  rw [checkLoop_through plugin pre _ last d h, checkLoop_send plugin t _ _ _ hs]
  simp only [hf]

theorem idAbove_parse (c : Nat) (t : Tweet) (h : idAbove c t = true) :
    ∃ x, ParseUint t.ID = .ok x ∧ c < x := by
  unfold idAbove at h
  cases hp : ParseUint t.ID with
  | error e => simp [hp] at h
  | ok x => exact ⟨x, rfl, by simpa [hp] using h⟩

theorem idAbove_ne (C : String) (c : Nat) (t : Tweet) (hC : ParseUint C = .ok c)
    (h : idAbove c t = true) : C ≠ t.ID := by
  obtain ⟨x, hx, hlt⟩ := idAbove_parse c t h
  intro heq
  rw [heq, hx] at hC
  cases hC
  exact Nat.lt_irrefl _ hlt

theorem newerThan_parse (a b : Tweet) (h : newerThan a b = true) :
    ∃ x y, ParseUint a.ID = .ok x ∧ ParseUint b.ID = .ok y ∧ y < x := by
  unfold newerThan at h
  cases ha : ParseUint a.ID with
  | error e => simp [ha] at h
  | ok x =>
    cases hb : ParseUint b.ID with
    | error e => simp [ha, hb] at h
    | ok y => exact ⟨x, y, rfl, rfl, by simpa [ha, hb] using h⟩

theorem newerThan_ne (a b : Tweet) (h : newerThan a b = true) : b.ID ≠ a.ID := by
  obtain ⟨x, y, hx, hy, hlt⟩ := newerThan_parse a b h
  intro heq
  rw [heq, hx] at hy
  cases hy
  exact Nat.lt_irrefl _ hlt

theorem reverse_split (S : List Tweet) (k : Nat) (tweet : Tweet) (hk1 : 1 ≤ k)
    (hkn : k ≤ S.length) (hitem : S[S.length - k]? = some tweet) :
    S.reverse = S.reverse.take (k - 1) ++ tweet :: S.reverse.drop k := by
  have hj : k - 1 < S.reverse.length := by simp; omega
  have hget : S.reverse[k - 1]? = some tweet := by
    rw [List.getElem?_reverse (by omega)]
    rw [show S.length - 1 - (k - 1) = S.length - k by omega]
    exact hitem
  have hget2 : S.reverse[k - 1] = tweet := by
    rw [List.getElem?_eq_getElem hj] at hget
    exact Option.some.inj hget
  conv_lhs => rw [← List.take_append_drop (k - 1) S.reverse]
  rw [List.drop_eq_getElem_cons hj, hget2]
  rw [show k - 1 + 1 = k by omega]

theorem take_reverse_getLast (S : List Tweet) (k : Nat) (hk2 : 2 ≤ k) (hkn : k ≤ S.length) :
    (S.reverse.take (k - 1)).getLast? = S[S.length - (k - 1)]? := by
  rw [List.getLast?_eq_getElem?, List.length_take, List.length_reverse]
  rw [show min (k - 1) S.length - 1 = k - 2 by omega]
  rw [List.getElem?_take_of_lt (by omega), List.getElem?_reverse (by omega)]
  rw [show S.length - 1 - (k - 2) = S.length - (k - 1) by omega]

/-- C1. In the processing loop of `Check`, run on a fetched slice `S` of
`n ≥ 1` tweets (newest first, ids strictly decreasing and above the valid cursor
`C`): if the `k`-th tweet in chronological order, `S[n - k]`, is not suppressed,
the sends for the non-suppressed tweets before it all succeed and its own send
fails with `e`, then the loop returns `e` together with the cursor `C` when
`k = 1` and the id of the chronological tweet `k - 1`, `S[n - (k - 1)]`,
otherwise (sent or suppressed alike); the returned cursor is not the id of the
chronological tweet `i` for any `i ≥ k`. -/
theorem processTweets_first_failure (plugin : TwitterPlugin) (discord : DiscordClient)
    (C : String) (c : Nat) (S : List Tweet) (k : Nat) (tweet : Tweet) (e : String)
    (hC : ParseUint C = .ok c) (hS : FetchedSince c S)
    (hk1 : 1 ≤ k) (hkn : k ≤ S.length)
    (hitem : S[S.length - k]? = some tweet)
    (hns : plugin.suppressed tweet = false)
    (hpre : SendsSucceed discord (plugin.dispatched (S.reverse.take (k - 1))))
    (hfail : discord.outcome (discord.calls ++ plugin.dispatched (S.reverse.take (k - 1)))
        (plugin.tweetMessage tweet) = some e) :
    (plugin.processTweets S C discord).err = some e
      ∧ (k = 1 → (plugin.processTweets S C discord).offset = some C)
      ∧ (∀ prev, 2 ≤ k → S[S.length - (k - 1)]? = some prev →
          (plugin.processTweets S C discord).offset = some prev.ID)
      ∧ (∀ i later, k ≤ i → i ≤ S.length → S[S.length - i]? = some later →
          (plugin.processTweets S C discord).offset ≠ some later.ID) := by
  have hrun : plugin.processTweets S C discord
      = { offset := some (((S.reverse.take (k - 1)).getLast?.map fun x => x.ID).getD C),
          err := some e,
          discord :=
            { discord with
              calls := discord.calls ++ plugin.dispatched (S.reverse.take (k - 1))
                ++ [plugin.tweetMessage tweet] } } := by
    unfold TwitterPlugin.processTweets
    conv_lhs => rw [reverse_split S k tweet hk1 hkn hitem]
    exact checkLoop_first_failure plugin _ _ tweet C e discord hpre hns hfail
  have hfirst : k = 1 → (plugin.processTweets S C discord).offset = some C := by
    intro h1
    rw [hrun, h1]
    simp
  have hprev : ∀ prev, 2 ≤ k → S[S.length - (k - 1)]? = some prev →
      (plugin.processTweets S C discord).offset = some prev.ID := by
    intro prev hk2 hp
    rw [hrun, take_reverse_getLast S k hk2 hkn, hp]
    simp
  refine ⟨by rw [hrun], hfirst, hprev, ?_⟩
  intro i later hki hin hl
  have hli : S.length - i < S.length := by omega
  have hlater : S[S.length - i] = later := by
    rw [List.getElem?_eq_getElem hli] at hl
    exact Option.some.inj hl
  by_cases h1 : k = 1
  · rw [hfirst h1]
    intro heq
    have hmem : later ∈ S := List.getElem?_mem hl
    exact idAbove_ne C c later hC (hS.2 later hmem) (Option.some.inj heq)
  · have hk2 : 2 ≤ k := by omega
    have hpi : S.length - (k - 1) < S.length := by omega
    rw [hprev S[S.length - (k - 1)] hk2 (List.getElem?_eq_getElem hpi)]
    intro heq
    have hnewer := (List.pairwise_iff_getElem.mp hS.1) (S.length - i) (S.length - (k - 1))
      hli hpi (by omega)
    rw [hlater] at hnewer
    exact newerThan_ne _ _ hnewer (Option.some.inj heq)

theorem processTweets_first_failure_witness :
    ParseUint "100" = .ok 100
      ∧ FetchedSince 100 (exampleTweet104 :: exampleFetched)
      ∧ 1 ≤ 4 ∧ 4 ≤ (exampleTweet104 :: exampleFetched).length
      ∧ (exampleTweet104 :: exampleFetched)[(exampleTweet104 :: exampleFetched).length - 4]?
          = some exampleTweet104
      ∧ examplePlugin.suppressed exampleTweet104 = false
      ∧ ((examplePlugin.processTweets (exampleTweet104 :: exampleFetched) "100"
            secondSendFails).err = some "rate limited"
        ∧ (4 = 1 → (examplePlugin.processTweets (exampleTweet104 :: exampleFetched) "100"
            secondSendFails).offset = some "100")
        ∧ (∀ prev, 2 ≤ 4 →
            (exampleTweet104 :: exampleFetched)[
              (exampleTweet104 :: exampleFetched).length - (4 - 1)]? = some prev →
            (examplePlugin.processTweets (exampleTweet104 :: exampleFetched) "100"
              secondSendFails).offset = some prev.ID)
        ∧ (∀ i later, 4 ≤ i → i ≤ (exampleTweet104 :: exampleFetched).length →
            (exampleTweet104 :: exampleFetched)[
              (exampleTweet104 :: exampleFetched).length - i]? = some later →
            (examplePlugin.processTweets (exampleTweet104 :: exampleFetched) "100"
              secondSendFails).offset ≠ some later.ID))
      ∧ (examplePlugin.processTweets (exampleTweet104 :: exampleFetched) "100"
            secondSendFails).offset = some "103" :=
  ⟨rfl, by unfold FetchedSince; decide, by decide, by decide, by decide, by decide,
    processTweets_first_failure examplePlugin secondSendFails "100" 100
      (exampleTweet104 :: exampleFetched) 4 exampleTweet104 "rate limited" rfl
      (by unfold FetchedSince; decide) (by decide) (by decide) (by decide) (by decide)
      (by simp [SendsSucceed, DiscordClient.Send]; decide) (by decide),
    by decide⟩

/-! ## Dispatch order and cursor of the feed variant -/

theorem suppressed_iff (plugin : TwitterPlugin) (t : Tweet) :
    plugin.suppressed t = true ↔
      ((∃ rt, t.RetweetedStatus = some rt ∧ plugin.retweetExclusions.get rt.Username = some true)
        ∨ (t.IsReply = true
            ∧ ∀ parent, t.InReplyToStatus = some parent → parent.Username ≠ plugin.Account)) := by
  unfold TwitterPlugin.suppressed TwitterPlugin.excludedRetweet TwitterPlugin.foreignReply
  rw [Bool.or_eq_true]
  apply or_congr
  · cases t.RetweetedStatus with
    | none => simp
    | some rt =>
      cases hg : plugin.retweetExclusions.get rt.Username with
      | none => simp [hg]
      | some b => simp [hg]
  · cases t.InReplyToStatus with
    | none => simp
    | some parent => simp

/-- C3. In the processing loop of `Check`, for every fetched slice `S` and every
exclusion map: when the sends the loop makes all succeed, the loop returns no
error, and the messages it has handed to the channel are exactly the messages of
the non-suppressed tweets of `S`, one each, in reverse of fetch order (oldest
first); a tweet is suppressed, and so has no message, exactly when it is a
retweet whose original author the exclusion map holds as `true`, or a reply that
is not directed at the polled account. -/
theorem processTweets_dispatch_order (plugin : TwitterPlugin) (discord : DiscordClient)
    (S : List Tweet) (C : String)
    (hsend : SendsSucceed discord (plugin.dispatched S.reverse)) :
    (plugin.processTweets S C discord).err = none
      ∧ (plugin.processTweets S C discord).discord.calls
          = discord.calls
            ++ (S.reverse.filter fun tweet => !plugin.suppressed tweet).map plugin.tweetMessage
      ∧ (plugin.processTweets S C discord).offset = some ((S.head?.map fun x => x.ID).getD C)
      ∧ ∀ tweet, plugin.suppressed tweet = true ↔
          ((∃ rt, tweet.RetweetedStatus = some rt
              ∧ plugin.retweetExclusions.get rt.Username = some true)
            ∨ (tweet.IsReply = true
                ∧ ∀ parent, tweet.InReplyToStatus = some parent →
                    parent.Username ≠ plugin.Account)) := by
  have hrun := checkLoop_all_sent plugin S.reverse C discord hsend
  unfold TwitterPlugin.processTweets
  rw [hrun]
  refine ⟨rfl, rfl, ?_, suppressed_iff plugin⟩
  simp

theorem processTweets_dispatch_order_witness :
    SendsSucceed reliableChannel (examplePlugin.dispatched exampleFetched.reverse)
      ∧ ((examplePlugin.processTweets exampleFetched "100" reliableChannel).err = none
        ∧ (examplePlugin.processTweets exampleFetched "100" reliableChannel).discord.calls
            = reliableChannel.calls
              ++ (exampleFetched.reverse.filter fun tweet =>
                    !examplePlugin.suppressed tweet).map examplePlugin.tweetMessage
        ∧ (examplePlugin.processTweets exampleFetched "100" reliableChannel).offset
            = some ((exampleFetched.head?.map fun x => x.ID).getD "100")
        ∧ ∀ tweet, examplePlugin.suppressed tweet = true ↔
            ((∃ rt, tweet.RetweetedStatus = some rt
                ∧ examplePlugin.retweetExclusions.get rt.Username = some true)
              ∨ (tweet.IsReply = true
                  ∧ ∀ parent, tweet.InReplyToStatus = some parent →
                      parent.Username ≠ examplePlugin.Account)))
      ∧ (examplePlugin.processTweets exampleFetched "100" reliableChannel).discord.calls
          = [{ text := "Author tweeted\nhttps://fxtwitter.com/author/status/102",
               name := "Twitter", avatar := "twitter", embed := none }]
      ∧ (examplePlugin.processTweets exampleFetched "100" reliableChannel).offset = some "103" :=
  ⟨by simp [SendsSucceed, DiscordClient.Send, reliableChannel],
    processTweets_dispatch_order examplePlugin reliableChannel exampleFetched "100"
      (by simp [SendsSucceed, DiscordClient.Send, reliableChannel]),
    by decide, by decide⟩

theorem head_is_max (c : Nat) (S : List Tweet) (first : Tweet) (hS : FetchedSince c S)
    (hfirst : S.head? = some first) :
    ∀ t ∈ S, ∃ x y, ParseUint t.ID = .ok x ∧ ParseUint first.ID = .ok y ∧ x ≤ y := by
  cases S with
  | nil => simp at hfirst
  | cons a rest =>
    simp only [List.head?_cons, Option.some.injEq] at hfirst
    subst hfirst
    intro t ht
    rcases List.mem_cons.mp ht with h | h
    · subst h
      obtain ⟨x, hx, _⟩ := idAbove_parse c t (hS.2 t (List.mem_cons_self _ _))
      exact ⟨x, x, hx, hx, Nat.le_refl x⟩
    · have hp := (List.pairwise_cons.mp hS.1).1 t h
      obtain ⟨x, y, hx, hy, hlt⟩ := newerThan_parse a t hp
      exact ⟨y, x, hy, hx, Nat.le_of_lt hlt⟩

/-! ## Filter policy and cursor monotonicity -/

theorem exclusions_get (accounts : List String) (m0 : GoMap Bool) (name : String) :
    GoMap.get (accounts.foldl (fun m account => m.set account true) m0) name
      = if name ∈ accounts then some true else GoMap.get m0 name := by
  induction accounts generalizing m0 with
  | nil => simp
  | cons a l ih =>
    rw [List.foldl_cons, ih]
    by_cases h1 : name ∈ l
    · simp [h1]
    · by_cases h2 : name = a
      · subst h2
        simp [GoMap.get, GoMap.set, List.lookup]
      · have h3 : (name == a) = false := by simpa using h2
        simp [h1, h2, GoMap.get, GoMap.set, List.lookup, h3]

theorem validate_excludedRetweet (plugin : TwitterPlugin) (hvalid : plugin.Validate.2 = none)
    (tweet : Tweet) (rt : TweetRef) (hrt : tweet.RetweetedStatus = some rt) :
    plugin.Validate.1.excludedRetweet tweet = true ↔ rt.Username ∈ plugin.ExcludedRetweetAccounts := by
  unfold TwitterPlugin.Validate at hvalid ⊢
  by_cases hacc : (plugin.Account.utf8ByteSize == 0) = true
  · simp [hacc] at hvalid
  · simp only [hacc, Bool.false_eq_true, if_false, TwitterPlugin.excludedRetweet, hrt,
      exclusions_get]
    by_cases hm : rt.Username ∈ plugin.ExcludedRetweetAccounts
    · simp [hm]
    · simp [hm, GoMap.get, List.lookup]

theorem validate_foreignReply (plugin : TwitterPlugin) (tweet : Tweet) :
    plugin.Validate.1.foreignReply tweet = true ↔
      (tweet.IsReply = true
        ∧ ∀ parent, tweet.InReplyToStatus = some parent → parent.Username ≠ plugin.Account) := by
  have hacc : plugin.Validate.1.Account = plugin.Account := by
    unfold TwitterPlugin.Validate
    split <;> rfl
  unfold TwitterPlugin.foreignReply
  rw [hacc]
  cases tweet.InReplyToStatus with
  | none => simp
  | some parent => simp

/-- C8, as stated, fails: for the validated plugin that excludes only `X`, a
retweet of `Y` that is also flagged as a reply (with no parent attached) is not
dispatched: the loop sends nothing and moves the cursor to the tweet's id. -/
theorem retweet_flagged_reply_not_dispatched :
    replyFlaggedRetweet.RetweetedStatus = some { ID := "901", Username := "Y" }
      ∧ "Y" ∉ ["X"]
      ∧ examplePlugin.retweetExclusions.get "Y" = none
      ∧ (examplePlugin.processTweets [replyFlaggedRetweet] "100" reliableChannel).discord.calls
          = []
      ∧ (examplePlugin.processTweets [replyFlaggedRetweet] "100" reliableChannel).offset
          = some "104"
      ∧ (examplePlugin.processTweets [replyFlaggedRetweet] "100" reliableChannel).err = none := by
  refine ⟨rfl, by decide, by decide, by decide, by decide, by decide⟩

/-- C8, amended. For a plugin that `Validate` accepted and a tweet that is a
retweet, processed on its own by the loop of `Check`: the tweet is suppressed (no
send is made, the cursor moves to its id and no error is returned) exactly when
the original tweet's author is in `ExcludedRetweetAccounts`, or the tweet is
flagged as a reply that is not directed at the polled account; otherwise the
loop makes exactly one send, of the tweet's message. -/
theorem retweet_suppressed_iff (plugin : TwitterPlugin) (hvalid : plugin.Validate.2 = none)
    (tweet : Tweet) (rt : TweetRef) (hrt : tweet.RetweetedStatus = some rt) (C : String)
    (discord : DiscordClient) :
    (((plugin.Validate.1.processTweets [tweet] C discord).discord.calls = discord.calls
          ∧ (plugin.Validate.1.processTweets [tweet] C discord).offset = some tweet.ID
          ∧ (plugin.Validate.1.processTweets [tweet] C discord).err = none) ↔
        (rt.Username ∈ plugin.ExcludedRetweetAccounts
          ∨ (tweet.IsReply = true
              ∧ ∀ parent, tweet.InReplyToStatus = some parent →
                  parent.Username ≠ plugin.Account)))
      ∧ (¬ (rt.Username ∈ plugin.ExcludedRetweetAccounts
            ∨ (tweet.IsReply = true
                ∧ ∀ parent, tweet.InReplyToStatus = some parent →
                    parent.Username ≠ plugin.Account)) →
          (plugin.Validate.1.processTweets [tweet] C discord).discord.calls
            = discord.calls ++ [plugin.Validate.1.tweetMessage tweet]) := by
  have hsup : plugin.Validate.1.suppressed tweet = true ↔
      (rt.Username ∈ plugin.ExcludedRetweetAccounts
        ∨ (tweet.IsReply = true
            ∧ ∀ parent, tweet.InReplyToStatus = some parent →
                parent.Username ≠ plugin.Account)) := by
    unfold TwitterPlugin.suppressed
    rw [Bool.or_eq_true, validate_excludedRetweet plugin hvalid tweet rt hrt,
      validate_foreignReply]
  have hlist : [tweet].reverse = [tweet] := rfl
  unfold TwitterPlugin.processTweets
  rw [hlist]
  cases hs : plugin.Validate.1.suppressed tweet
  · have hnot : ¬ (rt.Username ∈ plugin.ExcludedRetweetAccounts
        ∨ (tweet.IsReply = true
            ∧ ∀ parent, tweet.InReplyToStatus = some parent →
                parent.Username ≠ plugin.Account)) := by
      rw [← hsup, hs]
      simp
    rw [checkLoop_send _ tweet [] C discord hs]
    have hcalls : discord.calls ++ [plugin.Validate.1.tweetMessage tweet] ≠ discord.calls := by
      intro h
      have := congrArg List.length h
      simp at this
    cases ho : discord.outcome discord.calls (plugin.Validate.1.tweetMessage tweet) with
    | none =>
      exact ⟨⟨fun h => absurd h.1 hcalls, fun h => absurd h hnot⟩, fun _ => rfl⟩
    | some err =>
      exact ⟨⟨fun h => absurd h.1 hcalls, fun h => absurd h hnot⟩, fun _ => rfl⟩
  · have hyes := hsup.mp hs
    rw [checkLoop_suppressed _ tweet [] C discord hs]
    exact ⟨⟨fun _ => hyes, fun _ => ⟨rfl, rfl, rfl⟩⟩, fun h => absurd hyes h⟩

theorem retweet_suppressed_iff_witness :
    examplePlugin.Validate.2 = none
      ∧ replyFlaggedRetweet.RetweetedStatus = some { ID := "901", Username := "Y" }
      ∧ ((examplePlugin.Validate.1.processTweets [replyFlaggedRetweet] "100"
              reliableChannel).discord.calls = reliableChannel.calls
          ∧ (examplePlugin.Validate.1.processTweets [replyFlaggedRetweet] "100"
              reliableChannel).offset = some replyFlaggedRetweet.ID
          ∧ (examplePlugin.Validate.1.processTweets [replyFlaggedRetweet] "100"
              reliableChannel).err = none) :=
  ⟨rfl, rfl,
    (retweet_suppressed_iff examplePlugin rfl replyFlaggedRetweet
      { ID := "901", Username := "Y" } rfl "100" reliableChannel).1.mpr
      (Or.inr ⟨rfl, fun parent h => by simp [replyFlaggedRetweet] at h⟩)⟩

theorem parseUint_ok_nonempty (C : String) (c : Nat) (hC : ParseUint C = .ok c) :
    (C.utf8ByteSize == 0) = false := by
  unfold ParseUint at hC
  cases h : C.utf8ByteSize == 0
  · rfl
  · simp [h] at hC

theorem retrieveLoop_ok (c : Nat) (timeline : List TweetResult) (acc S : List Tweet)
    (h : retrieveLoop c timeline acc = .ok S) :
    S = acc ++ (timeline.takeWhile fun x => idAbove c x.Tweet).map fun x => x.Tweet := by
  induction timeline generalizing acc with
  | nil =>
    simp only [retrieveLoop, Except.ok.injEq] at h
    simp [h]
  | cons x rest ih =>
    rw [retrieveLoop] at h
    cases he : x.Error with
    | some err => simp [he] at h
    | none =>
      simp only [he] at h
      cases hp : ParseUint x.Tweet.ID with
      | error err => simp [hp] at h
      | ok v =>
        simp only [hp] at h
        by_cases hv : v ≤ c
        · simp only [hv, if_true, Except.ok.injEq] at h
          have hid : idAbove c x.Tweet = false := by
            simp [idAbove, hp, hv]
          simp [List.takeWhile, hid, h]
        · simp only [hv, if_false] at h
          have hid : idAbove c x.Tweet = true := by
            simp [idAbove, hp]
            omega
          rw [ih _ h]
          simp [List.takeWhile, hid]

theorem retrieveTweetsSince_ok (c : Nat) (timeline : List TweetResult) (S : List Tweet)
    (h : retrieveTweetsSince timeline c = .ok S) :
    S = (timeline.takeWhile fun x => idAbove c x.Tweet).map (fun x => x.Tweet)
      ∧ ∀ t ∈ S, idAbove c t = true := by
  have hS := retrieveLoop_ok c timeline [] S h
  rw [List.nil_append] at hS
  refine ⟨hS, ?_⟩
  intro t ht
  rw [hS] at ht
  obtain ⟨x, hx, rfl⟩ := List.mem_map.mp ht
  exact List.mem_takeWhile_imp (p := fun x : TweetResult => idAbove c x.Tweet) hx

theorem checkLoop_offset (plugin : TwitterPlugin) (items : List Tweet) (last : String)
    (d : DiscordClient) :
    (plugin.checkLoop items last d).offset = some last
      ∨ ∃ t ∈ items, (plugin.checkLoop items last d).offset = some t.ID := by
  induction items generalizing last d with
  | nil => exact Or.inl rfl
  | cons t rest ih =>
    have hstep : ∀ d2 : DiscordClient,
        (plugin.checkLoop rest t.ID d2).offset = some last
          ∨ ∃ u ∈ t :: rest, (plugin.checkLoop rest t.ID d2).offset = some u.ID := by
      intro d2
      rcases ih t.ID d2 with h | ⟨u, hu, h⟩
      · exact Or.inr ⟨t, List.mem_cons_self _ _, h⟩
      · exact Or.inr ⟨u, List.mem_cons_of_mem _ hu, h⟩
    cases hs : plugin.suppressed t
    · rw [checkLoop_send plugin t rest last d hs]
      cases d.outcome d.calls (plugin.tweetMessage t) with
      | none => exact hstep _
      | some err => exact Or.inl rfl
    · rw [checkLoop_suppressed plugin t rest last d hs]
      exact hstep _

theorem reportFetched_offset (plugin : TwitterPlugin) (env : TwitterEnv) (S : List Tweet)
    (last : String) (d : DiscordClient) :
    (plugin.reportFetched env S last d).offset = some last
      ∨ ∃ t ∈ S, (plugin.reportFetched env S last d).offset = some t.ID := by
  unfold TwitterPlugin.reportFetched
  split
  · exact Or.inl rfl
  · split
    · exact Or.inl rfl
    · rename_i named _
      rcases checkLoop_offset named S.reverse last d with h | ⟨t, ht, h⟩
      · exact Or.inl h
      · exact Or.inr ⟨t, List.mem_reverse.mp ht, h⟩

/-- How `Check` reaches its processing loop: with a valid cursor, a successful
login, a fetched non-empty slice `S`, a successful cookie save and a resolved
nickname, the value of `Check` is the value of the loop on `S`. -/
theorem check_eq_processTweets (plugin named : TwitterPlugin) (env : TwitterEnv)
    (discord : DiscordClient) (C : String) (c : Nat) (S : List Tweet)
    (hC : ParseUint C = .ok c) (hlogin : env.loginErr = none) (hin : env.loggedIn = true)
    (hfetch : retrieveTweetsSince env.timeline c = .ok S)
    (hsave : plugin.saveLoginState env = none) (hne : S ≠ [])
    (hnick : plugin.resolveNickname env = .ok named) :
    plugin.Check (some C) env discord = named.processTweets S C discord := by
  have hlen : (S.length == 0) = false := by
    cases S with
    | nil => exact absurd rfl hne
    | cons a l => rfl
  unfold TwitterPlugin.Check
  simp only [parseUint_ok_nonempty C c hC, hC, Bool.false_eq_true, if_false, hlogin, hin,
    Bool.not_true, hfetch, hsave, TwitterPlugin.reportFetched, hlen, hnick]

/-- C9. For every starting cursor `C` that parses as an unsigned 64-bit decimal
`c`, whatever the scraper answers and whatever the channel does, `Check` returns
a cursor that parses to a value `≥ c`; and when `retrieveTweetsSince` returns a
slice, it is the prefix of the stream before the first element whose id is not
above `c`, so every retained id is above `c`. -/
theorem check_cursor_never_rewinds (plugin : TwitterPlugin) (env : TwitterEnv)
    (discord : DiscordClient) (C : String) (c : Nat) (hC : ParseUint C = .ok c) :
    (∃ C2 c2, (plugin.Check (some C) env discord).offset = some C2
        ∧ ParseUint C2 = .ok c2 ∧ c ≤ c2)
      ∧ ∀ S, retrieveTweetsSince env.timeline c = .ok S →
          S = (env.timeline.takeWhile fun x => idAbove c x.Tweet).map (fun x => x.Tweet)
            ∧ ∀ t ∈ S, idAbove c t = true := by
  refine ⟨?_, fun S h => retrieveTweetsSince_ok c env.timeline S h⟩
  have hkeep : ∀ r : CheckResult, r.offset = some C →
      ∃ C2 c2, r.offset = some C2 ∧ ParseUint C2 = .ok c2 ∧ c ≤ c2 :=
    fun r h => ⟨C, c, h, hC, Nat.le_refl c⟩
  unfold TwitterPlugin.Check
  simp only [parseUint_ok_nonempty C c hC, hC, Bool.false_eq_true, if_false]
  cases env.loginErr with
  | some err => exact hkeep _ rfl
  | none =>
    simp only
    cases env.loggedIn with
    | false => exact hkeep _ rfl
    | true =>
      simp only [Bool.not_true, Bool.false_eq_true, if_false]
      cases hr : retrieveTweetsSince env.timeline c with
      | error err => exact hkeep _ rfl
      | ok S =>
        simp only
        cases plugin.saveLoginState env with
        | some err => exact hkeep _ rfl
        | none =>
          simp only
          rcases reportFetched_offset plugin env S C discord with h | ⟨t, ht, h⟩
          · exact hkeep _ h
          · obtain ⟨x, hx, hlt⟩ :=
              idAbove_parse c t ((retrieveTweetsSince_ok c env.timeline S hr).2 t ht)
            exact ⟨t.ID, x, h, hx, Nat.le_of_lt hlt⟩

theorem check_cursor_never_rewinds_witness :
    ParseUint "100" = .ok 100
      ∧ ((∃ C2 c2, (unnamedPlugin.Check (some "100") profileLookupFails secondSendFails).offset
              = some C2 ∧ ParseUint C2 = .ok c2 ∧ 100 ≤ c2)
        ∧ ∀ S, retrieveTweetsSince profileLookupFails.timeline 100 = .ok S →
            S = (profileLookupFails.timeline.takeWhile fun x => idAbove 100 x.Tweet).map
                  (fun x => x.Tweet)
              ∧ ∀ t ∈ S, idAbove 100 t = true)
      ∧ retrieveTweetsSince profileLookupFails.timeline 100 = .ok exampleFetched
      ∧ (unnamedPlugin.Check (some "100") profileLookupFails secondSendFails).offset
          = some "100"
      ∧ (examplePlugin.Check (some "100") profileLookupFails secondSendFails).offset
          = some "103" :=
  ⟨rfl, check_cursor_never_rewinds unnamedPlugin profileLookupFails secondSendFails "100" 100 rfl,
    rfl, by decide, by decide⟩

/-! ## The cursor after a fully successful run -/

theorem checkLoop_err_none (plugin : TwitterPlugin) (items : List Tweet) (last : String)
    (d : DiscordClient) (h : (plugin.checkLoop items last d).err = none) :
    (plugin.checkLoop items last d).offset
      = some ((items.getLast?.map fun x => x.ID).getD last) := by
  induction items generalizing last d with
  | nil => rfl
  | cons t rest ih =>
    rw [getLast_cons_getD]
    cases hs : plugin.suppressed t
    · rw [checkLoop_send plugin t rest last d hs] at h ⊢
      cases ho : d.outcome d.calls (plugin.tweetMessage t) with
      | none =>
        rw [ho] at h
        exact ih _ _ h
      | some err =>
        rw [ho] at h
        exact absurd h (by simp)
    · rw [checkLoop_suppressed plugin t rest last d hs] at h ⊢
      exact ih _ _ h

theorem reportFetched_err_none (plugin : TwitterPlugin) (env : TwitterEnv) (S : List Tweet)
    (C : String) (d : DiscordClient) (h : (plugin.reportFetched env S C d).err = none) :
    (plugin.reportFetched env S C d).offset = some ((S.head?.map fun x => x.ID).getD C) := by
  cases S with
  | nil => rfl
  | cons a rest =>
    have hlen : ((a :: rest).length == 0) = false := rfl
    unfold TwitterPlugin.reportFetched at h ⊢
    simp only [hlen, Bool.false_eq_true, if_false] at h ⊢
    cases hn : plugin.resolveNickname env with
    | error err =>
      rw [hn] at h
      exact absurd h (by simp)
    | ok named =>
      rw [hn] at h
      simp only [TwitterPlugin.processTweets] at h ⊢
      rw [checkLoop_err_none named _ C d h, List.getLast?_reverse]

theorem check_eq_reportFetched (plugin : TwitterPlugin) (env : TwitterEnv)
    (discord : DiscordClient) (C : String) (c : Nat) (S : List Tweet)
    (hC : ParseUint C = .ok c) (hlogin : env.loginErr = none) (hin : env.loggedIn = true)
    (hfetch : retrieveTweetsSince env.timeline c = .ok S)
    (hsave : plugin.saveLoginState env = none) :
    plugin.Check (some C) env discord = plugin.reportFetched env S C discord := by
  unfold TwitterPlugin.Check
  simp only [parseUint_ok_nonempty C c hC, hC, Bool.false_eq_true, if_false, hlogin, hin,
    Bool.not_true, hfetch, hsave]

theorem check_err_none (plugin : TwitterPlugin) (env : TwitterEnv) (discord : DiscordClient)
    (C : String) (c : Nat) (S : List Tweet) (hC : ParseUint C = .ok c)
    (hfetch : retrieveTweetsSince env.timeline c = .ok S)
    (herr : (plugin.Check (some C) env discord).err = none) :
    plugin.Check (some C) env discord = plugin.reportFetched env S C discord := by
  cases hlogin : env.loginErr with
  | some e =>
    unfold TwitterPlugin.Check at herr
    simp [parseUint_ok_nonempty C c hC, hC, hlogin] at herr
  | none =>
    cases hin : env.loggedIn with
    | false =>
      unfold TwitterPlugin.Check at herr
      simp [parseUint_ok_nonempty C c hC, hC, hlogin, hin] at herr
    | true =>
      cases hsave : plugin.saveLoginState env with
      | some e =>
        unfold TwitterPlugin.Check at herr
        simp [parseUint_ok_nonempty C c hC, hC, hlogin, hin, hfetch, hsave] at herr
      | none => exact check_eq_reportFetched plugin env discord C c S hC hlogin hin hfetch hsave

/-- C2. For every valid cursor `C` and the sequence `S` that `Check` fetched for
it, with strictly decreasing ids above `C`: after a fully successful run (`Check`
returns no error, so every attempted send succeeded) the returned cursor is `C`
unchanged when `S` is empty, and otherwise the id of `S[0]`, which differs from
`C` and is the largest id of `S`, whichever tweets were suppressed. The run is
fully successful whenever login, cookie save and nickname fallback succeed and
the channel accepts the messages of the non-suppressed tweets. -/
theorem check_success_cursor (plugin : TwitterPlugin) (env : TwitterEnv)
    (discord : DiscordClient) (C : String) (c : Nat) (S : List Tweet)
    (hC : ParseUint C = .ok c)
    (hfetch : retrieveTweetsSince env.timeline c = .ok S) (hS : FetchedSince c S) :
    ((plugin.Check (some C) env discord).err = none →
        (S = [] → (plugin.Check (some C) env discord).offset = some C)
          ∧ ∀ first, S.head? = some first →
              (plugin.Check (some C) env discord).offset = some first.ID
                ∧ first.ID ≠ C
                ∧ ∀ t ∈ S, ∃ x y,
                    ParseUint t.ID = .ok x ∧ ParseUint first.ID = .ok y ∧ x ≤ y)
      ∧ (∀ named, env.loginErr = none → env.loggedIn = true →
          plugin.saveLoginState env = none → plugin.resolveNickname env = .ok named →
          SendsSucceed discord (named.dispatched S.reverse) →
          (plugin.Check (some C) env discord).err = none) := by
  constructor
  · intro herr
    have hrun := check_err_none plugin env discord C c S hC hfetch herr
    have hoff : (plugin.Check (some C) env discord).offset
        = some ((S.head?.map fun x => x.ID).getD C) := by
      rw [hrun] at herr ⊢
      exact reportFetched_err_none plugin env S C discord herr
    constructor
    · intro hnil
      rw [hoff, hnil]
      rfl
    · intro first hfirst
      have hmem : first ∈ S := List.mem_of_mem_head? hfirst
      rw [hoff, hfirst]
      exact ⟨rfl, (idAbove_ne C c first hC (hS.2 first hmem)).symm,
        head_is_max c S first hS hfirst⟩
  · intro named hlogin hin hsave hnick hsend
    rw [check_eq_reportFetched plugin env discord C c S hC hlogin hin hfetch hsave]
    cases S with
    | nil => rfl
    | cons a rest =>
      have hlen : ((a :: rest).length == 0) = false := rfl
      unfold TwitterPlugin.reportFetched
      simp only [hlen, Bool.false_eq_true, if_false, hnick, TwitterPlugin.processTweets]
      rw [checkLoop_all_sent named _ C discord hsend]

theorem check_success_cursor_witness :
    ParseUint "100" = .ok 100
      ∧ retrieveTweetsSince healthyRun.timeline 100 = .ok exampleFetched
      ∧ FetchedSince 100 exampleFetched
      ∧ (examplePlugin.Check (some "100") healthyRun reliableChannel).err = none
      ∧ exampleFetched.head? = some
          { ID := "103", Username := "author", IsReply := false,
            RetweetedStatus := some { ID := "900", Username := "X" }, InReplyToStatus := none }
      ∧ (examplePlugin.Check (some "100") healthyRun reliableChannel).offset = some "103"
      ∧ "103" ≠ "100"
      ∧ (examplePlugin.Check (some "100") healthyRun reliableChannel).discord.calls
          = [{ text := "Author tweeted\nhttps://fxtwitter.com/author/status/102",
               name := "Twitter", avatar := "twitter", embed := none }] :=
  have h := check_success_cursor examplePlugin healthyRun reliableChannel "100" 100
    exampleFetched rfl rfl (by unfold FetchedSince; decide)
  have hsend : SendsSucceed reliableChannel (examplePlugin.dispatched exampleFetched.reverse) := by
    simp [SendsSucceed, DiscordClient.Send, reliableChannel]
  have herr := h.2 examplePlugin rfl rfl rfl rfl hsend
  have hcur := (h.1 herr).2 _ rfl
  ⟨rfl, rfl, by unfold FetchedSince; decide, herr, rfl, hcur.1, hcur.2.1, by decide⟩

end Sanderson
